import Mathlib

/-!
Verification of the market reconciliation and streaming-aggregation core of
the TUMfoolery prediction-market dashboard.

The definitions below are shallow embeddings of the TypeScript source:
JavaScript strings become `String`, numbers become `ℚ` (all the prices and
probabilities handled by this code are decimal fractions), `Map`/`Set`
objects become association lists / lists with membership, and JS falsiness
of an absent-or-empty string field is modelled by the empty string.
-/

namespace TUMfoolery

/-- Ticker metadata attached to a Kalshi market (`KalshiTickerInfo` in
`web/src/lib/kalshi-types.ts`).  Optional string fields are `""` when
absent, mirroring JS falsiness of `undefined` and `""`. -/
structure KalshiTickerInfo where
  team1 : String
  team2 : String
  team1_full : String
  team2_full : String
  prop : String
  prop_full : String
  bet_description : String
  date : String
deriving DecidableEq, Repr, Inhabited

/-- A Kalshi market record (`KalshiMarket` in `web/src/lib/kalshi-types.ts`),
restricted to the fields the reconciliation logic reads. -/
structure KalshiMarket where
  market_id : String
  ticker : String
  title : String
  yes_price : ℚ
  no_price : ℚ
  volume : ℚ
  ticker_info : KalshiTickerInfo
deriving DecidableEq, Repr, Inhabited

/-- The JS idiom `a || b` on strings: `b` when `a` is falsy (empty). -/
def jsOr (a b : String) : String :=
  if a = "" then b else a

/-- `market.market_id || market.ticker`, the identifier used throughout the
Kalshi page to deduplicate markets. -/
def KalshiMarket.marketId (m : KalshiMarket) : String :=
  jsOr m.market_id m.ticker

/-- The comparison-page match-map key (page component, compare branch):
`const key = ` followed by the template `team1-team2`. -/
def compareMatchKey (team1 team2 : String) : String :=
  team1 ++ "-" ++ team2

/-- The Kalshi grouping key (page component, `groupedMarkets`):
`const matchKey = ` followed by the template `date-team1-team2`. -/
def kalshiMatchKey (date team1 team2 : String) : String :=
  date ++ "-" ++ team1 ++ "-" ++ team2

/-- A string has no dash character. -/
def DashFree (s : String) : Prop :=
  ∀ c ∈ s.data, c ≠ '-'

instance (s : String) : Decidable (DashFree s) := by
  unfold DashFree
  infer_instance

/- ### Helper lemmas about the key shape -/

lemma takeWhile_dashFree_append (A B : List Char) (h : ∀ c ∈ A, c ≠ '-') :
    (A ++ '-' :: B).takeWhile (fun c => c != '-') = A := by
  induction A with
  | nil => simp [List.takeWhile]
  | cons a as ih =>
      have ha : a ≠ '-' := h a (List.mem_cons_self a as)
      have has : ∀ c ∈ as, c ≠ '-' := fun c hc => h c (List.mem_cons_of_mem a hc)
      have ha' : (a != '-') = true := by simpa using ha
      simp [List.takeWhile_cons, ha', ih has]

lemma dash_sep_inj (A B : List Char)
    (hA : ∀ c ∈ A, c ≠ '-') (hB : ∀ c ∈ B, c ≠ '-')
    (h : A ++ '-' :: B = B ++ '-' :: A) : A = B := by
  have h1 := congrArg (List.takeWhile (fun c => c != '-')) h
  rwa [takeWhile_dashFree_append A B hA, takeWhile_dashFree_append B A hB] at h1

lemma string_append_data (a b : String) : (a ++ b).data = a.data ++ b.data :=
  String.data_append a b

lemma compareMatchKey_inj_of_dashFree (A B : String)
    (hA : DashFree A) (hB : DashFree B)
    (h : compareMatchKey A B = compareMatchKey B A) : A = B := by
  have hdata : A.data ++ '-' :: B.data = B.data ++ '-' :: A.data := by
    have := congrArg String.data h
    simpa [compareMatchKey, string_append_data, List.append_assoc] using this
  have := dash_sep_inj A.data B.data hA hB hdata
  exact String.ext this

lemma kalshiMatchKey_inj_of_dashFree (d A B : String)
    (hA : DashFree A) (hB : DashFree B)
    (h : kalshiMatchKey d A B = kalshiMatchKey d B A) : A = B := by
  have hdata : d.data ++ '-' :: (A.data ++ '-' :: B.data)
      = d.data ++ '-' :: (B.data ++ '-' :: A.data) := by
    have := congrArg String.data h
    simpa [kalshiMatchKey, string_append_data, List.append_assoc] using this
  have hmid : A.data ++ '-' :: B.data = B.data ++ '-' :: A.data := by
    have := List.append_cancel_left hdata
    exact List.cons_injective this
  exact String.ext (dash_sep_inj A.data B.data hA hB hmid)

/- ### Cross-source comparator (`CompareMarketCard.tsx`) -/

/-- `calculateDiscrepancy` in `CompareMarketCard.tsx`: absolute difference of
two probabilities. -/
def calculateDiscrepancy (prob1 prob2 : ℚ) : ℚ :=
  |prob1 - prob2|

/-- `maxDiscrepancy` in `CompareMarketCard.tsx`: `Math.max` of the three
pairwise discrepancies, each term defaulting to `0` when the corresponding
source probability is `undefined`. -/
def maxDiscrepancy (tumfooleryProb : ℚ) (kalshiProb manifoldProb : Option ℚ) : ℚ :=
  max (max
    (match kalshiProb with
      | some p => calculateDiscrepancy tumfooleryProb p
      | none => 0)
    (match manifoldProb with
      | some p => calculateDiscrepancy tumfooleryProb p
      | none => 0))
    (match kalshiProb, manifoldProb with
      | some p, some q => calculateDiscrepancy p q
      | _, _ => 0)

/-- An element of the compare page's `compareData` array (page component,
compare branch). -/
structure CompareRecord where
  team1 : String
  team2 : String
  marketDescription : String
  tumfooleryProb : ℚ
  kalshiProb : Option ℚ
  manifoldProb : Option ℚ
deriving DecidableEq, Repr

/-- The record the compare page inserts for a Kalshi market whose key is not
already in the match map: `tumfooleryProb` is defaulted to `0.5`
("Default if no TUMfoolery data") and `kalshiProb` is the market's
`yes_price`. -/
def kalshiOnlyRecord (m : KalshiMarket) : CompareRecord :=
  { team1 := jsOr m.ticker_info.team1_full m.ticker_info.team1
    team2 := jsOr m.ticker_info.team2_full m.ticker_info.team2
    marketDescription := jsOr m.ticker_info.bet_description
      (jsOr m.ticker_info.prop_full m.title)
    tumfooleryProb := 1/2
    kalshiProb := some m.yes_price
    manifoldProb := none }

/-- The `maxDiscrepancy` the card computes for a comparison record. -/
def CompareRecord.maxDisc (r : CompareRecord) : ℚ :=
  maxDiscrepancy r.tumfooleryProb r.kalshiProb r.manifoldProb

/-- A Kalshi market used as concrete test data: the ARS leg of an
Arsenal-vs-Chelsea fixture priced at 0.9. -/
def sampleKalshiOnlyMarket : KalshiMarket :=
  { market_id := "KXEPLGAME-25NOV01ARSCHE-ARS"
    ticker := "KXEPLGAME-25NOV01ARSCHE-ARS"
    title := "Arsenal vs Chelsea Winner?"
    yes_price := 9/10
    no_price := 1/10
    volume := 1000
    ticker_info :=
      { team1 := "ARS", team2 := "CHE"
        team1_full := "Arsenal", team2_full := "Chelsea"
        prop := "ARS", prop_full := "Arsenal Wins"
        bet_description := "Arsenal Wins", date := "25NOV01" } }

/- ### Claim theorems: C1 -/

/-- C1, counterexample: the comparison-page match key and the Kalshi grouping
key are NOT order independent — swapping the team identifiers of a concrete
fixture yields different keys in both key constructions. -/
theorem compareKey_swap_ne_concrete :
    compareMatchKey "Arsenal" "Chelsea" ≠ compareMatchKey "Chelsea" "Arsenal" ∧
    kalshiMatchKey "2024-03-01" "ARS" "CHE" ≠ kalshiMatchKey "2024-03-01" "CHE" "ARS" := by
  decide

/-- C1, amended: the match keys are order DEPENDENT — for any two distinct
team identifiers containing no dash and any date, the key computed for
(A, B, d) differs from the key computed for (B, A, d), both on the
comparison page and in the Kalshi grouping; two records for the same fixture
with swapped home/away team order are therefore assigned different keys. -/
theorem matchKey_order_dependent (A B d : String) (hne : A ≠ B)
    (hA : DashFree A) (hB : DashFree B) :
    compareMatchKey A B ≠ compareMatchKey B A ∧
    kalshiMatchKey d A B ≠ kalshiMatchKey d B A := by
  constructor
  · intro h
    exact hne (compareMatchKey_inj_of_dashFree A B hA hB h)
  · intro h
    exact hne (kalshiMatchKey_inj_of_dashFree d A B hA hB h)

/-- Witness for `matchKey_order_dependent` at the team codes of the spec's
scenario. -/
theorem matchKey_order_dependent_witness :
    ("ARS" : String) ≠ "CHE" ∧ DashFree "ARS" ∧ DashFree "CHE" ∧
    (compareMatchKey "ARS" "CHE" ≠ compareMatchKey "CHE" "ARS" ∧
     kalshiMatchKey "2024-03-01" "ARS" "CHE" ≠ kalshiMatchKey "2024-03-01" "CHE" "ARS") :=
  ⟨by decide, by decide, by decide,
    matchKey_order_dependent "ARS" "CHE" "2024-03-01" (by decide) (by decide) (by decide)⟩

/- ### Claim theorems: C2 -/

/-- C2, counterexample: a comparison record whose canonical key is present
only in the Kalshi source does NOT get `maxDiscrepancy = 0`: the page
defaults its `tumfooleryProb` to `0.5`, so the concrete Kalshi-only market
priced at 0.9 yields `maxDiscrepancy = 0.4 ≠ 0`. -/
theorem kalshiOnly_maxDiscrepancy_ne_zero :
    (kalshiOnlyRecord sampleKalshiOnlyMarket).maxDisc = 2/5 ∧ (2/5 : ℚ) ≠ 0 := by
  constructor
  · simp only [CompareRecord.maxDisc, kalshiOnlyRecord, sampleKalshiOnlyMarket,
      maxDiscrepancy, calculateDiscrepancy]
    rw [show |(1:ℚ)/2 - 9/10| = 2/5 by rw [abs_of_neg] <;> norm_num]
    rw [max_eq_left (by norm_num), max_eq_left (by norm_num)]
  · norm_num

/-- C2, amended: a record present in no external source (only the always
present TUMfoolery model) has `maxDiscrepancy = 0`; but a record whose key is
present only in the Kalshi source is assigned the default
`tumfooleryProb = 0.5`, and its `maxDiscrepancy` equals `|0.5 - yes_price|`,
which is nonzero whenever the Kalshi price differs from 0.5. -/
theorem singleSource_maxDiscrepancy_amended :
    (∀ t : ℚ, maxDiscrepancy t none none = 0) ∧
    (∀ m : KalshiMarket, (kalshiOnlyRecord m).maxDisc = |1/2 - m.yes_price|) := by
  constructor
  · intro t
    simp [maxDiscrepancy]
  · intro m
    simp only [CompareRecord.maxDisc, kalshiOnlyRecord, maxDiscrepancy,
      calculateDiscrepancy]
    have h1 : max |(1:ℚ)/2 - m.yes_price| 0 = |(1:ℚ)/2 - m.yes_price| :=
      max_eq_left (abs_nonneg _)
    rw [h1, h1]

/- ### Claim theorems: C6 -/

/-- C6: for every comparison record built from per-source probabilities that
all lie in `[0,1]`, the computed `maxDiscrepancy` lies in `[0,1]`. -/
theorem maxDiscrepancy_bounds (t : ℚ) (kp mp : Option ℚ)
    (ht0 : 0 ≤ t) (ht1 : t ≤ 1)
    (hk : ∀ p, kp = some p → 0 ≤ p ∧ p ≤ 1)
    (hm : ∀ p, mp = some p → 0 ≤ p ∧ p ≤ 1) :
    0 ≤ maxDiscrepancy t kp mp ∧ maxDiscrepancy t kp mp ≤ 1 := by
  have habs : ∀ a b : ℚ, 0 ≤ a → a ≤ 1 → 0 ≤ b → b ≤ 1 → |a - b| ≤ 1 := by
    intro a b ha0 ha1 hb0 hb1
    rw [abs_le]
    exact ⟨by linarith, by linarith⟩
  cases kp with
  | none =>
    cases mp with
    | none =>
      simp [maxDiscrepancy]
    | some q =>
      obtain ⟨hq0, hq1⟩ := hm q rfl
      simp only [maxDiscrepancy, calculateDiscrepancy]
      refine ⟨le_max_of_le_right le_rfl, max_le (max_le (by norm_num) ?_) (by norm_num)⟩
      exact habs t q ht0 ht1 hq0 hq1
  | some p =>
    obtain ⟨hp0, hp1⟩ := hk p rfl
    cases mp with
    | none =>
      simp only [maxDiscrepancy, calculateDiscrepancy]
      refine ⟨le_max_of_le_right le_rfl, max_le (max_le ?_ (by norm_num)) (by norm_num)⟩
      exact habs t p ht0 ht1 hp0 hp1
    | some q =>
      obtain ⟨hq0, hq1⟩ := hm q rfl
      simp only [maxDiscrepancy, calculateDiscrepancy]
      refine ⟨le_max_of_le_left (le_max_of_le_left (abs_nonneg _)),
        max_le (max_le ?_ ?_) ?_⟩
      · exact habs t p ht0 ht1 hp0 hp1
      · exact habs t q ht0 ht1 hq0 hq1
      · exact habs p q hp0 hp1 hq0 hq1

/-- Witness for `maxDiscrepancy_bounds` at a concrete record with a single
external source. -/
theorem maxDiscrepancy_bounds_witness :
    (0:ℚ) ≤ 1/2 ∧ (1/2:ℚ) ≤ 1 ∧
    (0 ≤ maxDiscrepancy (1/2) (some (3/10)) none ∧
     maxDiscrepancy (1/2) (some (3/10)) none ≤ 1) :=
  ⟨by norm_num, by norm_num,
    maxDiscrepancy_bounds (1/2) (some (3/10)) none (by norm_num) (by norm_num)
      (fun p hp => by
        have h : p = 3/10 := (Option.some.inj hp).symm
        rw [h]
        norm_num)
      (fun p hp => nomatch hp)⟩

/- ### Kalshi page streaming aggregation (page component, EventSource
`onmessage` handler) -/

/-- The page-local aggregation state: the `seenMarketIds` set (modelled as a
list with membership) and the `kalshiMarkets` list. -/
structure KalshiPageState where
  seen : List String
  markets : List KalshiMarket
deriving DecidableEq, Repr

/-- The streamed events the page handler dispatches on: `initial_batch` and
`final_batch` (both handled identically), `market_update`, `status`,
`error`, and `raw`. -/
inductive StreamEvent where
  | batch (markets : List KalshiMarket)
  | marketUpdate (market : KalshiMarket)
  | status (message : String)
  | error (message : String)
  | raw (message : String)
deriving DecidableEq, Repr

/-- The `market_update` branch of the page's `onmessage` handler: an unseen
market id is recorded and the market appended; a seen id causes an in-place
replacement of every list entry bearing that id. -/
def handleMarketUpdate (s : KalshiPageState) (market : KalshiMarket) : KalshiPageState :=
  let marketId := market.marketId
  if marketId ∉ s.seen then
    { seen := marketId :: s.seen, markets := s.markets ++ [market] }
  else
    { s with
        markets := s.markets.map fun m => if m.marketId = marketId then market else m }

/-- One step of the batch filter: a market whose id is unseen is kept and its
id recorded; a seen id is skipped (the `filter` callback with the stateful
`seenMarketIds.add`). -/
def batchStep (acc : List String × List KalshiMarket) (m : KalshiMarket) :
    List String × List KalshiMarket :=
  let marketId := m.marketId
  if marketId ∉ acc.1 then (marketId :: acc.1, acc.2 ++ [m]) else acc

/-- The `initial_batch` / `final_batch` branch of the `onmessage` handler:
filter the batch against `seenMarketIds`, then append the new markets. -/
def handleBatch (s : KalshiPageState) (batch : List KalshiMarket) : KalshiPageState :=
  let r := batch.foldl batchStep (s.seen, [])
  { seen := r.1, markets := s.markets ++ r.2 }

/-- The full `onmessage` dispatch: `status`, `error` and unrecognized (`raw`)
events never change the market list or the seen set. -/
def handleStreamEvent (s : KalshiPageState) : StreamEvent → KalshiPageState
  | StreamEvent.batch ms => handleBatch s ms
  | StreamEvent.marketUpdate m => handleMarketUpdate s m
  | StreamEvent.status _ => s
  | StreamEvent.error _ => s
  | StreamEvent.raw _ => s

/-- Processing a whole stream of events in arrival order. -/
def processEvents (s : KalshiPageState) (evs : List StreamEvent) : KalshiPageState :=
  evs.foldl handleStreamEvent s

/-- The state at stream start: `seenMarketIds` is initialized by adding the
id of every market already in the list (page component, before the
`EventSource` is opened). -/
def initState (ms : List KalshiMarket) : KalshiPageState :=
  { seen := ms.map KalshiMarket.marketId, markets := ms }

/-- The handler's invariant: market ids in the list are pairwise distinct and
every listed id has been recorded in `seenMarketIds`. -/
def PageInv (s : KalshiPageState) : Prop :=
  (s.markets.map KalshiMarket.marketId).Nodup ∧
  ∀ m ∈ s.markets, m.marketId ∈ s.seen

lemma handleMarketUpdate_inv (s : KalshiPageState) (u : KalshiMarket)
    (h : PageInv s) : PageInv (handleMarketUpdate s u) := by
  obtain ⟨hnd, hsub⟩ := h
  by_cases hseen : u.marketId ∉ s.seen
  · have heq : handleMarketUpdate s u
        = ⟨u.marketId :: s.seen, s.markets ++ [u]⟩ := by
      simp [handleMarketUpdate, hseen]
    rw [heq]
    constructor
    · rw [List.map_append]
      rw [List.nodup_append]
      refine ⟨hnd, List.nodup_singleton _, ?_⟩
      intro x hx hx'
      simp only [List.map_cons, List.map_nil, List.mem_singleton] at hx'
      subst hx'
      obtain ⟨m, hm, hmid⟩ := List.mem_map.mp hx
      exact hseen (hmid ▸ hsub m hm)
    · intro m hm
      rcases List.mem_append.mp hm with hm' | hm'
      · exact List.mem_cons_of_mem _ (hsub m hm')
      · rw [List.mem_singleton.mp hm']
        exact List.mem_cons_self _ _
  · rw [not_not] at hseen
    have heq : handleMarketUpdate s u
        = ⟨s.seen, s.markets.map fun m =>
            if m.marketId = u.marketId then u else m⟩ := by
      simp [handleMarketUpdate, hseen]
    rw [heq]
    have hids : (s.markets.map fun m =>
        if m.marketId = u.marketId then u else m).map KalshiMarket.marketId
        = s.markets.map KalshiMarket.marketId := by
      rw [List.map_map]
      refine List.map_congr_left ?_
      intro m _
      by_cases hc : m.marketId = u.marketId
      · simp [Function.comp, hc]
      · simp [Function.comp, hc]
    constructor
    · rw [hids]
      exact hnd
    · intro m' hm'
      obtain ⟨m, hm, hfm⟩ := List.mem_map.mp hm'
      have : m'.marketId = m.marketId := by
        subst hfm
        by_cases hc : m.marketId = u.marketId
        · simp [hc]
        · simp [hc]
      rw [this]
      exact hsub m hm

/-- The invariant carried through the batch fold: the accumulator's seen set
extends the pre-batch seen set, the kept markets have pairwise-distinct ids,
each kept id is recorded, and no kept id was seen before the batch. -/
def BatchInv (seen0 : List String) (acc : List String × List KalshiMarket) : Prop :=
  (∀ x ∈ seen0, x ∈ acc.1) ∧ (acc.2.map KalshiMarket.marketId).Nodup ∧
  (∀ m ∈ acc.2, m.marketId ∈ acc.1) ∧ (∀ m ∈ acc.2, m.marketId ∉ seen0)

lemma batchStep_inv (seen0 : List String) (acc : List String × List KalshiMarket)
    (m : KalshiMarket) (h : BatchInv seen0 acc) : BatchInv seen0 (batchStep acc m) := by
  obtain ⟨hsub, hnd, hmem, hnew⟩ := h
  by_cases hseen : m.marketId ∉ acc.1
  · have heq : batchStep acc m = (m.marketId :: acc.1, acc.2 ++ [m]) := by
      simp [batchStep, hseen]
    rw [heq]
    refine ⟨fun x hx => List.mem_cons_of_mem _ (hsub x hx), ?_, ?_, ?_⟩
    · rw [List.map_append, List.nodup_append]
      refine ⟨hnd, List.nodup_singleton _, ?_⟩
      intro x hx hx'
      simp only [List.map_cons, List.map_nil, List.mem_singleton] at hx'
      subst hx'
      obtain ⟨m', hm', hmid⟩ := List.mem_map.mp hx
      exact hseen (hmid ▸ hmem m' hm')
    · intro m' hm'
      rcases List.mem_append.mp hm' with hm'' | hm''
      · exact List.mem_cons_of_mem _ (hmem m' hm'')
      · rw [List.mem_singleton.mp hm'']
        exact List.mem_cons_self _ _
    · intro m' hm'
      rcases List.mem_append.mp hm' with hm'' | hm''
      · exact hnew m' hm''
      · rw [List.mem_singleton.mp hm'']
        exact fun hc => hseen (hsub _ hc)
  · have heq : batchStep acc m = acc := by
      simp only [batchStep]
      rw [if_neg hseen]
    rw [heq]
    exact ⟨hsub, hnd, hmem, hnew⟩

lemma batch_fold_inv (seen0 : List String) (batch : List KalshiMarket) :
    ∀ acc, BatchInv seen0 acc → BatchInv seen0 (batch.foldl batchStep acc) := by
  induction batch with
  | nil => intro acc h; exact h
  | cons b bs ih =>
      intro acc h
      exact ih (batchStep acc b) (batchStep_inv seen0 acc b h)

lemma handleBatch_inv (s : KalshiPageState) (batch : List KalshiMarket)
    (h : PageInv s) : PageInv (handleBatch s batch) := by
  obtain ⟨hnd, hsub⟩ := h
  have hinv0 : BatchInv s.seen (s.seen, []) := by
    refine ⟨fun x hx => hx, List.nodup_nil, ?_, ?_⟩
    · intro m hm
      exact absurd hm (List.not_mem_nil m)
    · intro m hm
      exact absurd hm (List.not_mem_nil m)
  obtain ⟨hsub', hnd', hmem', hnew'⟩ :=
    batch_fold_inv s.seen batch (s.seen, []) hinv0
  constructor
  · show ((s.markets ++ (batch.foldl batchStep (s.seen, [])).2).map
      KalshiMarket.marketId).Nodup
    rw [List.map_append, List.nodup_append]
    refine ⟨hnd, hnd', ?_⟩
    intro x hx hx'
    obtain ⟨m, hm, hmid⟩ := List.mem_map.mp hx
    obtain ⟨m', hm', hmid'⟩ := List.mem_map.mp hx'
    exact hnew' m' hm' (hmid' ▸ hmid ▸ hsub m hm)
  · intro m hm
    rcases List.mem_append.mp hm with hm' | hm'
    · exact hsub' _ (hsub m hm')
    · exact hmem' m hm'

lemma handleStreamEvent_inv (s : KalshiPageState) (ev : StreamEvent)
    (h : PageInv s) : PageInv (handleStreamEvent s ev) := by
  cases ev with
  | batch ms => exact handleBatch_inv s ms h
  | marketUpdate m => exact handleMarketUpdate_inv s m h
  | status _ => exact h
  | error _ => exact h
  | raw _ => exact h

lemma processEvents_inv (evs : List StreamEvent) :
    ∀ s, PageInv s → PageInv (processEvents s evs) := by
  induction evs with
  | nil => intro s h; exact h
  | cons e es ih =>
      intro s h
      exact ih (handleStreamEvent s e) (handleStreamEvent_inv s e h)

/- ### Claim theorems: C3 -/

/-- C3: processing the same market update twice through the page's streaming
message handler leaves the observable market list equal to the list obtained
after processing it once, provided every listed market's id is recorded in
`seenMarketIds` (which the page establishes before the stream starts and the
handler maintains). -/
theorem handleMarketUpdate_idempotent (s : KalshiPageState) (u : KalshiMarket)
    (hsub : ∀ m ∈ s.markets, m.marketId ∈ s.seen) :
    (handleMarketUpdate (handleMarketUpdate s u) u).markets
      = (handleMarketUpdate s u).markets := by
  by_cases hseen : u.marketId ∉ s.seen
  · have h1 : handleMarketUpdate s u
        = ⟨u.marketId :: s.seen, s.markets ++ [u]⟩ := by
      simp [handleMarketUpdate, hseen]
    rw [h1]
    have h2 : handleMarketUpdate ⟨u.marketId :: s.seen, s.markets ++ [u]⟩ u
        = ⟨u.marketId :: s.seen, (s.markets ++ [u]).map fun m =>
            if m.marketId = u.marketId then u else m⟩ := by
      simp [handleMarketUpdate]
    rw [h2]
    show ((s.markets ++ [u]).map fun m =>
        if m.marketId = u.marketId then u else m) = s.markets ++ [u]
    rw [List.map_append]
    congr 1
    · refine (List.map_congr_left ?_).trans (List.map_id _)
      intro m hm
      have : m.marketId ≠ u.marketId := fun hc => hseen (hc ▸ hsub m hm)
      simp [this]
    · simp
  · rw [not_not] at hseen
    have h1 : handleMarketUpdate s u
        = ⟨s.seen, s.markets.map fun m =>
            if m.marketId = u.marketId then u else m⟩ := by
      simp [handleMarketUpdate, hseen]
    rw [h1]
    have h2 : handleMarketUpdate
        ⟨s.seen, s.markets.map fun m => if m.marketId = u.marketId then u else m⟩ u
        = ⟨s.seen, (s.markets.map fun m =>
            if m.marketId = u.marketId then u else m).map fun m =>
            if m.marketId = u.marketId then u else m⟩ := by
      simp [handleMarketUpdate, hseen]
    rw [h2]
    show ((s.markets.map fun m => if m.marketId = u.marketId then u else m).map
        fun m => if m.marketId = u.marketId then u else m)
      = s.markets.map fun m => if m.marketId = u.marketId then u else m
    rw [List.map_map]
    refine List.map_congr_left ?_
    intro m _
    by_cases hc : m.marketId = u.marketId
    · simp [Function.comp, hc]
    · simp [Function.comp, hc]

/-- A second Kalshi market used as concrete test data. -/
def sampleMarketTie : KalshiMarket :=
  { market_id := "KXEPLGAME-25NOV01ARSCHE-TIE"
    ticker := "KXEPLGAME-25NOV01ARSCHE-TIE"
    title := "Arsenal vs Chelsea Winner?"
    yes_price := 1/4
    no_price := 3/4
    volume := 500
    ticker_info :=
      { team1 := "ARS", team2 := "CHE"
        team1_full := "Arsenal", team2_full := "Chelsea"
        prop := "TIE", prop_full := "Tie/Draw"
        bet_description := "Tie/Draw", date := "25NOV01" } }

/-- Witness for `handleMarketUpdate_idempotent` at a concrete one-market
state. -/
theorem handleMarketUpdate_idempotent_witness :
    (∀ m ∈ (initState [sampleKalshiOnlyMarket]).markets,
      m.marketId ∈ (initState [sampleKalshiOnlyMarket]).seen) ∧
    (handleMarketUpdate
        (handleMarketUpdate (initState [sampleKalshiOnlyMarket]) sampleMarketTie)
        sampleMarketTie).markets
      = (handleMarketUpdate (initState [sampleKalshiOnlyMarket]) sampleMarketTie).markets :=
  ⟨by decide, handleMarketUpdate_idempotent (initState [sampleKalshiOnlyMarket])
    sampleMarketTie (by decide)⟩

/- ### Claim theorems: C9 -/

/-- C9: starting from a duplicate-free market list (with `seenMarketIds`
initialized from it, as the page does), any sequence of streamed events
leaves the market list with pairwise-distinct market identifiers: a known id
is replaced in place, an unknown id is appended. -/
theorem marketList_ids_nodup (ms : List KalshiMarket) (evs : List StreamEvent)
    (hnd : (ms.map KalshiMarket.marketId).Nodup) :
    ((processEvents (initState ms) evs).markets.map KalshiMarket.marketId).Nodup := by
  have hinv : PageInv (initState ms) :=
    ⟨hnd, fun m hm => List.mem_map_of_mem KalshiMarket.marketId hm⟩
  exact (processEvents_inv evs (initState ms) hinv).1

/-- Witness for `marketList_ids_nodup`: one initial market, then a stream
with a batch repeating it and a fresh market update. -/
theorem marketList_ids_nodup_witness :
    (([sampleKalshiOnlyMarket].map KalshiMarket.marketId).Nodup) ∧
    ((processEvents (initState [sampleKalshiOnlyMarket])
        [StreamEvent.batch [sampleKalshiOnlyMarket, sampleMarketTie],
         StreamEvent.marketUpdate sampleMarketTie]).markets.map
      KalshiMarket.marketId).Nodup :=
  ⟨by decide, marketList_ids_nodup [sampleKalshiOnlyMarket]
    [StreamEvent.batch [sampleKalshiOnlyMarket, sampleMarketTie],
     StreamEvent.marketUpdate sampleMarketTie] (by decide)⟩

/- ### Realtime updates component (`RealtimeKalshiUpdates.tsx`) -/

/-- The `data` payload of a streamed `market_update` message, restricted to
the fields the component reads. -/
structure RMarketData where
  ticker : String
  current_price : Option ℚ
  implied_probability : Option ℚ
deriving DecidableEq, Repr

/-- A stored update (`MarketUpdateWithId`): the embedded producer timestamp,
the payload, the synthesized id, and the remembered previous price. -/
structure MarketUpdateWithId where
  timestamp : ℤ
  data : Option RMarketData
  id : String
  previousPrice : Option ℚ
deriving DecidableEq, Repr

/-- A streamed SSE message as the component's `onmessage` sees it (`type`
discriminant plus the fields each type carries; an absent `message` is
`""`). -/
inductive RealtimeMessage where
  | marketUpdate (timestamp : ℤ) (data : Option RMarketData)
  | status (message : String) (timestamp : ℤ)
  | error (message : String) (timestamp : ℤ)
  | raw (message : String) (timestamp : ℤ)
deriving DecidableEq, Repr

/-- Whether one character list occurs as a prefix of another (helper for the
JS `String.prototype.includes`). -/
def charsStartWith : List Char → List Char → Bool
  | _, [] => true
  | [], _ :: _ => false
  | c :: cs, p :: ps => c == p && charsStartWith cs ps

/-- Whether `pat` occurs contiguously inside `l` — the JS
`String.prototype.includes` on character lists. -/
def charsIncludes : List Char → List Char → Bool
  | [], pat => pat.isEmpty
  | c :: cs, pat => charsStartWith (c :: cs) pat || charsIncludes cs pat

/-- The JS `s.includes(pat)`. -/
def strIncludes (s pat : String) : Bool :=
  charsIncludes s.data pat.data

/-- JS `Map.set` on an association list: overwrite in place when the key is
present (keeping insertion order), append otherwise. -/
def mapSet (l : List (String × ℚ)) (k : String) (v : ℚ) : List (String × ℚ) :=
  if (l.lookup k).isSome then
    l.map fun kv => if kv.1 = k then (k, v) else kv
  else
    l ++ [(k, v)]

/-- The component's state: the bounded updates list, the per-ticker price
history, the connection status, and the error banner. -/
structure RealtimeState where
  updates : List MarketUpdateWithId
  priceHistory : List (String × ℚ)
  connectionStatus : String
  errorMessage : Option String
deriving DecidableEq, Repr

/-- The stored update constructed for an incoming `market_update` message:
id is the template `ticker-timestamp`, and `previousPrice || null` turns a
remembered price of `0` into `null`. -/
def mkUpdateWithId (s : RealtimeState) (ts : ℤ) (d : RMarketData) : MarketUpdateWithId :=
  { timestamp := ts
    data := some d
    id := d.ticker ++ "-" ++ toString ts
    previousPrice :=
      match s.priceHistory.lookup d.ticker with
      | some p => if p = 0 then none else some p
      | none => none }

/-- The component's `onmessage` handler (`RealtimeKalshiUpdates.tsx`):
`market_update` messages with a payload are prepended to the updates list,
which is truncated to the 50 most recent entries; `status` and `error`
messages only touch the connection status and error banner; anything else
(including `raw`) is ignored. -/
def handleRealtimeMessage (s : RealtimeState) : RealtimeMessage → RealtimeState
  | RealtimeMessage.marketUpdate ts d =>
      match d with
      | some dta =>
          { s with
              updates := (mkUpdateWithId s ts dta :: s.updates).take 50
              priceHistory :=
                match dta.current_price with
                | some p => mapSet s.priceHistory dta.ticker p
                | none => s.priceHistory }
      | none => s
  | RealtimeMessage.status msg _ =>
      { s with
          connectionStatus :=
            if strIncludes msg "opened" then "connected"
            else if strIncludes msg "closed" then "disconnected"
            else s.connectionStatus }
  | RealtimeMessage.error msg _ =>
      { s with
          connectionStatus := "error"
          errorMessage := some (jsOr msg "An error occurred") }
  | RealtimeMessage.raw _ _ => s

/-- `latestByTicker` (`RealtimeKalshiUpdates.tsx`): group updates by ticker,
keeping for each ticker the entry whose EMBEDDED timestamp is strictly
greatest (a JS `Map` built by `forEach`, so the earlier list position wins
ties and insertion order is preserved). -/
def latestByTicker (updates : List MarketUpdateWithId) :
    List (String × MarketUpdateWithId) :=
  updates.foldl (fun acc u =>
    match u.data with
    | none => acc
    | some d =>
        match acc.lookup d.ticker with
        | none => acc ++ [(d.ticker, u)]
        | some prev =>
            if u.timestamp > prev.timestamp then
              acc.map fun kv => if kv.1 = d.ticker then (d.ticker, u) else kv
            else acc) []

/- ### Unit normalization (`RealtimeKalshiUpdates.tsx`, `KalshiMarketRow.tsx`) -/

/-- The numeric core of `formatPercentage` in `RealtimeKalshiUpdates.tsx`:
the displayed percentage is `value` itself when `value > 1` ("already a
percentage"), else `value * 100` — a magnitude heuristic. -/
def formatPercentageValue (value : ℚ) : ℚ :=
  if value > 1 then value else value * 100

/-- `KalshiMarketRow.tsx`: `const probability = market.yes_price` — the
price is taken to be a probability verbatim. -/
def kalshiRowProbability (m : KalshiMarket) : ℚ :=
  m.yes_price

/- ### Claim theorems: C4 -/

/-- Concrete realtime payloads and stored updates: `rtU1` arrives FIRST but
carries the LARGER embedded timestamp; `rtU2` arrives second. -/
def rtD1 : RMarketData :=
  { ticker := "KXEPLGAME-25NOV01ARSCHE-ARS"
    current_price := some (42/100)
    implied_probability := some (42/100) }

def rtD2 : RMarketData :=
  { ticker := "KXEPLGAME-25NOV01ARSCHE-ARS"
    current_price := some (55/100)
    implied_probability := some (55/100) }

def rtU1 : MarketUpdateWithId :=
  { timestamp := 100
    data := some rtD1
    id := "KXEPLGAME-25NOV01ARSCHE-ARS-100"
    previousPrice := none }

def rtU2 : MarketUpdateWithId :=
  { timestamp := 50
    data := some rtD2
    id := "KXEPLGAME-25NOV01ARSCHE-ARS-50"
    previousPrice := none }

/-- C4, counterexample: with the stored updates list `[rtU2, rtU1]` (the
component prepends, so `rtU2` is the LAST arrival), `latestByTicker` retains
`rtU1` — the update with the larger EMBEDDED timestamp — not the last
arrival, so embedded producer timestamps do decide which update wins. -/
theorem latestByTicker_embedded_timestamp_wins :
    latestByTicker [rtU2, rtU1] = [(rtD1.ticker, rtU1)] ∧ rtU1 ≠ rtU2 := by
  refine ⟨rfl, ?_⟩
  intro h
  exact absurd (congrArg MarketUpdateWithId.timestamp h) (by decide)

/-- C4, amended: in the Kalshi page's handler, merging is last-write-wins by
arrival order — after ingesting `u`, every list entry bearing `u`'s id IS
`u`; but in the realtime updates component, when two stored updates share a
ticker the retained one is chosen by the EMBEDDED producer timestamp (the
strictly greater timestamp wins; arrival order only breaks ties). -/
theorem merge_lastWrite_and_timestamp_selection :
    (∀ (s : KalshiPageState) (u m : KalshiMarket),
       (∀ m' ∈ s.markets, m'.marketId ∈ s.seen) →
       m ∈ (handleMarketUpdate s u).markets → m.marketId = u.marketId → m = u) ∧
    (∀ (u1 u2 : MarketUpdateWithId) (d1 d2 : RMarketData),
       u1.data = some d1 → u2.data = some d2 → d1.ticker = d2.ticker →
       latestByTicker [u2, u1]
         = [(d2.ticker, if u2.timestamp < u1.timestamp then u1 else u2)]) := by
  constructor
  · intro s u m hsub hm hid
    by_cases hseen : u.marketId ∉ s.seen
    · have heq : handleMarketUpdate s u
          = ⟨u.marketId :: s.seen, s.markets ++ [u]⟩ := by
        simp [handleMarketUpdate, hseen]
      rw [heq] at hm
      rcases List.mem_append.mp hm with hm' | hm'
      · exact absurd (hid ▸ hsub m hm') hseen
      · exact List.mem_singleton.mp hm'
    · rw [not_not] at hseen
      have heq : handleMarketUpdate s u
          = ⟨s.seen, s.markets.map fun m' =>
              if m'.marketId = u.marketId then u else m'⟩ := by
        simp [handleMarketUpdate, hseen]
      rw [heq] at hm
      obtain ⟨m', hm', hfm⟩ := List.mem_map.mp hm
      by_cases hc : m'.marketId = u.marketId
      · rw [if_pos hc] at hfm
        exact hfm.symm
      · rw [if_neg hc] at hfm
        exact absurd (hfm ▸ hid) hc
  · intro u1 u2 d1 d2 h1 h2 h12
    simp only [latestByTicker, List.foldl_cons, List.foldl_nil, h1, h2, h12]
    by_cases ht : u2.timestamp < u1.timestamp
    · simp [List.lookup, ht]
    · simp [List.lookup, ht]

/-- A replacement market sharing `sampleMarketTie`'s id but with a new
price. -/
def sampleMarketTie2 : KalshiMarket :=
  { sampleMarketTie with yes_price := 1/3, no_price := 2/3 }

/-- Witness for `merge_lastWrite_and_timestamp_selection`, applying the
arrival-order part at a concrete page state and the timestamp part at the
concrete stored updates. -/
theorem merge_lastWrite_and_timestamp_selection_witness :
    ((∀ m' ∈ (initState [sampleMarketTie]).markets,
        m'.marketId ∈ (initState [sampleMarketTie]).seen) ∧
     sampleMarketTie2 ∈
        (handleMarketUpdate (initState [sampleMarketTie]) sampleMarketTie2).markets ∧
     sampleMarketTie2 = sampleMarketTie2) ∧
    (rtU1.data = some rtD1 ∧ rtU2.data = some rtD2 ∧ rtD1.ticker = rtD2.ticker) ∧
    latestByTicker [rtU2, rtU1]
      = [(rtD2.ticker, if rtU2.timestamp < rtU1.timestamp then rtU1 else rtU2)] :=
  ⟨⟨by decide, List.mem_singleton.mpr rfl,
      merge_lastWrite_and_timestamp_selection.1 (initState [sampleMarketTie])
        sampleMarketTie2 sampleMarketTie2 (by decide)
        (List.mem_singleton.mpr rfl) rfl⟩,
   ⟨rfl, rfl, rfl⟩,
   merge_lastWrite_and_timestamp_selection.2 rtU1 rtU2 rtD1 rtD2 rfl rfl rfl⟩

/- ### Claim theorems: C5 -/

/-- C5, counterexample: the displayed unit is decided by the magnitude test
`value > 1`, not by a per-source branch — a price of 1 in the 0-100 cents
convention (which should normalize to probability 0.01, i.e. display as the
percentage 1) is displayed as the percentage 100. -/
theorem formatPercentage_magnitude_cents_one :
    formatPercentageValue 1 = 100 ∧ (100 : ℚ) ≠ 1 := by
  constructor
  · rw [formatPercentageValue, if_neg (lt_irrefl 1)]
    norm_num
  · norm_num

/-- C5, amended: the realtime component normalizes by inspecting the value's
magnitude — a value strictly greater than 1 is displayed as that percentage
(so a cents price of 42 displays as 42%, i.e. probability 0.42), and a value
at most 1 is displayed as `value * 100` (so a probability of 0.42 displays
as 42% unchanged); there is no per-source unit branch, and `KalshiMarketRow`
takes `yes_price` as a probability verbatim. -/
theorem normalization_magnitude_branch :
    (∀ v : ℚ, 1 < v → formatPercentageValue v = v) ∧
    (∀ v : ℚ, v ≤ 1 → formatPercentageValue v = v * 100) ∧
    (∀ m : KalshiMarket, kalshiRowProbability m = m.yes_price) := by
  refine ⟨?_, ?_, fun m => rfl⟩
  · intro v hv
    rw [formatPercentageValue, if_pos hv]
  · intro v hv
    rw [formatPercentageValue, if_neg (not_lt.mpr hv)]

/-- Witness for `normalization_magnitude_branch` at the spec's example
values 42 (cents) and 0.42 (probability). -/
theorem normalization_magnitude_branch_witness :
    (1 < (42:ℚ)) ∧ formatPercentageValue 42 = 42 ∧
    ((42:ℚ)/100 ≤ 1) ∧ formatPercentageValue (42/100) = (42/100) * 100 :=
  ⟨by norm_num, normalization_magnitude_branch.1 42 (by norm_num),
   by norm_num, normalization_magnitude_branch.2.1 (42/100) (by norm_num)⟩

/- ### Claim theorems: C10 -/

/-- C10: the realtime component's updates list stays bounded at 50 entries
after every message; a `market_update` with a payload is prepended (most
recent first); every other message — `status`, `error`, `raw` — leaves the
list unchanged. -/
theorem realtime_updates_bound_and_order (s : RealtimeState) (msg : RealtimeMessage)
    (h50 : s.updates.length ≤ 50) :
    ((handleRealtimeMessage s msg).updates.length ≤ 50) ∧
    (∀ ts d, msg = RealtimeMessage.marketUpdate ts (some d) →
       (handleRealtimeMessage s msg).updates.head? = some (mkUpdateWithId s ts d)) ∧
    (∀ m t, msg = RealtimeMessage.status m t ∨ msg = RealtimeMessage.error m t ∨
        msg = RealtimeMessage.raw m t →
       (handleRealtimeMessage s msg).updates = s.updates) := by
  cases msg with
  | marketUpdate ts d =>
      cases d with
      | some dta =>
          refine ⟨?_, ?_, ?_⟩
          · show ((mkUpdateWithId s ts dta :: s.updates).take 50).length ≤ 50
            rw [List.length_take]
            exact min_le_left _ _
          · intro ts' d' heq
            obtain ⟨hts, hd⟩ : ts = ts' ∧ some dta = some d' := by
              injection heq with h1 h2
              exact ⟨h1, h2⟩
            obtain rfl := hts
            obtain rfl : dta = d' := Option.some.inj hd
            show ((mkUpdateWithId s ts dta :: s.updates).take 50).head? = _
            rw [List.take_succ_cons]
            rfl
          · intro m t h
            rcases h with h | h | h <;> exact absurd h (by simp)
      | none =>
          refine ⟨h50, ?_, ?_⟩
          · intro ts' d' heq
            injection heq with h1 h2
            exact absurd h2 (by simp)
          · intro m t h
            rcases h with h | h | h <;> exact absurd h (by simp)
  | status m t =>
      refine ⟨h50, ?_, fun _ _ _ => rfl⟩
      intro ts d heq
      exact absurd heq (by simp)
  | error m t =>
      refine ⟨h50, ?_, fun _ _ _ => rfl⟩
      intro ts d heq
      exact absurd heq (by simp)
  | raw m t =>
      refine ⟨h50, ?_, fun _ _ _ => rfl⟩
      intro ts d heq
      exact absurd heq (by simp)

/-- Witness for `realtime_updates_bound_and_order` at the component's
initial state receiving a concrete `market_update`. -/
theorem realtime_updates_bound_and_order_witness :
    ((RealtimeState.mk [] [] "connecting" none).updates.length ≤ 50) ∧
    (((handleRealtimeMessage (RealtimeState.mk [] [] "connecting" none)
        (RealtimeMessage.marketUpdate 100 (some rtD1))).updates.length ≤ 50) ∧
     (∀ ts d, RealtimeMessage.marketUpdate 100 (some rtD1)
          = RealtimeMessage.marketUpdate ts (some d) →
        (handleRealtimeMessage (RealtimeState.mk [] [] "connecting" none)
            (RealtimeMessage.marketUpdate 100 (some rtD1))).updates.head?
          = some (mkUpdateWithId (RealtimeState.mk [] [] "connecting" none) ts d)) ∧
     (∀ m t, RealtimeMessage.marketUpdate 100 (some rtD1) = RealtimeMessage.status m t ∨
         RealtimeMessage.marketUpdate 100 (some rtD1) = RealtimeMessage.error m t ∨
         RealtimeMessage.marketUpdate 100 (some rtD1) = RealtimeMessage.raw m t →
        (handleRealtimeMessage (RealtimeState.mk [] [] "connecting" none)
            (RealtimeMessage.marketUpdate 100 (some rtD1))).updates
          = (RealtimeState.mk [] [] "connecting" none).updates)) :=
  ⟨by decide,
   realtime_updates_bound_and_order (RealtimeState.mk [] [] "connecting" none)
     (RealtimeMessage.marketUpdate 100 (some rtD1)) (by decide)⟩

/- ### Team-name resolution (`KalshiMatchCard.tsx`, `findBestTeamName`) -/

/-- The JS `s.trim()`: strip whitespace from both ends (character-list
implementation so the kernel can evaluate it). -/
def strTrim (s : String) : String :=
  ⟨((s.data.dropWhile Char.isWhitespace).reverse.dropWhile Char.isWhitespace).reverse⟩

/-- Index of the leftmost occurrence of `sep` in `l`, if any. -/
def firstMatchIdx (l sep : List Char) : Option Nat :=
  (List.range (l.length + 1)).find? fun i => charsStartWith (l.drop i) sep

/-- Fuel-driven splitting of a character list on a nonempty separator
(leftmost, non-overlapping — the JS `String.prototype.split` semantics). -/
def splitGo : Nat → List Char → List Char → List (List Char)
  | 0, l, _ => [l]
  | n + 1, l, sep =>
      match firstMatchIdx l sep with
      | none => [l]
      | some i => l.take i :: splitGo n (l.drop (i + sep.length)) sep

/-- The JS `s.split(sep)` for a nonempty separator. -/
def strSplitOn (s sep : String) : List String :=
  if sep.data.isEmpty then [s]
  else (splitGo (s.data.length + 1) s.data sep.data).map fun l => ⟨l⟩

/-- The hardcoded EPL team pattern table in `findBestTeamName`. -/
def teamPatterns : List String :=
  ["Brighton", "Crystal Palace", "Aston Villa", "Manchester City", "Manchester United",
   "Tottenham", "Arsenal", "Liverpool", "Chelsea", "Newcastle", "West Ham",
   "Bournemouth", "Wolves", "Everton", "Fulham", "Leicester", "Leeds",
   "Southampton", "Brentford", "Nottingham Forest", "Burnley", "Sheffield United", "Luton"]

/-- The separators tried when extracting team names from a market title. -/
def vsPatterns : List String :=
  [" vs ", " VS ", " v ", " V ", " - ", " – "]

/-- `findBestTeamName` from `KalshiMatchCard.tsx`: (1) the first market in
the group with a non-trivial `team{1,2}_full` wins; (2) otherwise split each
market title on a vs-separator and look for a case-sensitive substring
containment match (either direction) against the pattern table, then for a
pattern contained directly in the title; (3) otherwise fall back to the
FIRST market's 3-letter team code, or the placeholder `Team 1`/`Team 2`. -/
def findBestTeamName (markets : List KalshiMarket) (teamIndex : Nat) : String :=
  match markets.findSome? (fun market =>
    let info := market.ticker_info
    let teamFull := if teamIndex = 0 then info.team1_full else info.team2_full
    let teamCode := if teamIndex = 0 then info.team1 else info.team2
    if teamFull ≠ "" ∧ teamFull ≠ teamCode ∧ 2 < teamFull.length then
      some teamFull
    else none) with
  | some name => name
  | none =>
    match markets.findSome? (fun market =>
      if market.title ≠ "" then
        match vsPatterns.findSome? (fun pat =>
          if strIncludes market.title pat then
            let parts := strSplitOn market.title pat
            if 2 ≤ parts.length then
              let teamPart := strTrim (parts.getD teamIndex "")
              teamPatterns.findSome? (fun team =>
                if strIncludes teamPart team || strIncludes team teamPart then
                  some team
                else none)
            else none
          else none) with
        | some name => some name
        | none =>
            teamPatterns.findSome? (fun team =>
              if strIncludes market.title team then some team else none)
      else none) with
    | some name => name
    | none =>
      let tickerInfo := (markets.headD default).ticker_info
      let teamCode := if teamIndex = 0 then tickerInfo.team1 else tickerInfo.team2
      if teamCode ≠ "" ∧ teamCode.length = 3 then teamCode
      else if teamIndex = 0 then "Team 1" else "Team 2"

/- ### Producer stream routes (`/api/kalshi/stream`,
`/api/kalshi/markets-stream`) -/

/-- An SSE event a route emits for one stdout line: either the parsed JSON
line forwarded as-is, or a `raw` wrapper. -/
inductive SSEEvent where
  | forwarded (line : String)
  | raw (message : String)
deriving DecidableEq, Repr

/-- The per-line stdout handling of `/api/kalshi/stream`: trim; skip empty
lines; forward parseable lines; wrap unparseable lines as a `raw` event
carrying the trimmed line.  `parseOk` abstracts `JSON.parse` succeeding. -/
def processLineStream (parseOk : String → Bool) (line : String) : List SSEEvent :=
  let trimmedLine := strTrim line
  if trimmedLine ≠ "" then
    if parseOk trimmedLine then [SSEEvent.forwarded trimmedLine]
    else [SSEEvent.raw trimmedLine]
  else []

/-- The per-line stdout handling of `/api/kalshi/markets-stream`: identical,
except an unparseable line is silently dropped ("If it's not valid JSON,
ignore"). -/
def processLineMarketsStream (parseOk : String → Bool) (line : String) : List SSEEvent :=
  let trimmedLine := strTrim line
  if trimmedLine ≠ "" then
    if parseOk trimmedLine then [SSEEvent.forwarded trimmedLine]
    else []
  else []

/- ### Claim theorems: C7 -/

/-- A market whose title names the teams in lowercase and whose ticker info
carries no team fields. -/
def mLowercaseTitle : KalshiMarket :=
  { market_id := "KXEPLGAME-25NOV01ARSCHE"
    ticker := "KXEPLGAME-25NOV01ARSCHE"
    title := "arsenal vs chelsea"
    yes_price := 1/2
    no_price := 1/2
    volume := 0
    ticker_info :=
      { team1 := "", team2 := "", team1_full := "", team2_full := ""
        prop := "", prop_full := "", bet_description := "", date := "" } }

/-- C7, counterexample: there is no case-insensitive exact-match step and
no verbatim raw fallback — resolving the lowercase title part `arsenal`
yields the placeholder `Team 1`, not the alias `Arsenal` (as a
case-insensitive match would) and not the raw string `arsenal` (as a
verbatim fallback would). -/
theorem findBestTeamName_lowercase_not_resolved :
    findBestTeamName [mLowercaseTitle] 0 = "Team 1" ∧
    ("Team 1" : String) ≠ "Arsenal" ∧ ("Team 1" : String) ≠ "arsenal" := by
  refine ⟨by decide, by decide, by decide⟩

/-- C7, amended: resolution tries, in order, (1) a market in the group with
a nonempty `team1_full` differing from the team code and longer than 2
characters; (2) a case-sensitive substring-containment match (either
direction) of the vs-split, trimmed title part against the hardcoded
pattern table, then a pattern contained directly in the title; (3) a
fallback to the FIRST market's team code verbatim when it is a nonempty
3-character code, else the placeholder `Team 1`/`Team 2`.  There is no
case-insensitive step, and a raw identifier that is not a 3-character code
is replaced by the placeholder rather than kept verbatim. -/
theorem findBestTeamName_order_and_fallback :
    (∀ (m : KalshiMarket) (ms : List KalshiMarket),
       m.ticker_info.team1_full ≠ "" →
       m.ticker_info.team1_full ≠ m.ticker_info.team1 →
       2 < m.ticker_info.team1_full.length →
       findBestTeamName (m :: ms) 0 = m.ticker_info.team1_full) ∧
    (∀ m : KalshiMarket, m.ticker_info.team1_full = "" → m.title = "" →
       m.ticker_info.team1 ≠ "" → m.ticker_info.team1.length = 3 →
       findBestTeamName [m] 0 = m.ticker_info.team1) ∧
    (∀ m : KalshiMarket, m.ticker_info.team1_full = "" → m.title = "" →
       ¬ m.ticker_info.team1.length = 3 →
       findBestTeamName [m] 0 = "Team 1") := by
  refine ⟨?_, ?_, ?_⟩
  · intro m ms h1 h2 h3
    simp [findBestTeamName, List.findSome?_cons, h1, h2, h3]
  · intro m h1 h2 h3 h4
    simp [findBestTeamName, List.findSome?_cons, List.findSome?_nil,
      List.headD_cons, h1, h2, h3, h4]
  · intro m h1 h2 h3
    simp [findBestTeamName, List.findSome?_cons, List.findSome?_nil,
      List.headD_cons, h1, h2, h3]

/-- A market carrying only a 3-letter team code. -/
def mCodeOnly : KalshiMarket :=
  { mLowercaseTitle with
      title := ""
      ticker_info := { mLowercaseTitle.ticker_info with team1 := "ARS" } }

/-- A market whose only team identifier is not a 3-letter code. -/
def mNoCode : KalshiMarket :=
  { mLowercaseTitle with
      title := ""
      ticker_info := { mLowercaseTitle.ticker_info with team1 := "ARSENALFC" } }

/-- Witness for `findBestTeamName_order_and_fallback` at concrete markets
for each of the three branches. -/
theorem findBestTeamName_order_and_fallback_witness :
    (sampleKalshiOnlyMarket.ticker_info.team1_full ≠ "" ∧
     sampleKalshiOnlyMarket.ticker_info.team1_full
       ≠ sampleKalshiOnlyMarket.ticker_info.team1 ∧
     2 < sampleKalshiOnlyMarket.ticker_info.team1_full.length ∧
     findBestTeamName [sampleKalshiOnlyMarket] 0
       = sampleKalshiOnlyMarket.ticker_info.team1_full) ∧
    (findBestTeamName [mCodeOnly] 0 = mCodeOnly.ticker_info.team1) ∧
    (findBestTeamName [mNoCode] 0 = "Team 1") :=
  ⟨⟨by decide, by decide, by decide,
     findBestTeamName_order_and_fallback.1 sampleKalshiOnlyMarket []
       (by decide) (by decide) (by decide)⟩,
   findBestTeamName_order_and_fallback.2.1 mCodeOnly
     (by decide) (by decide) (by decide) (by decide),
   findBestTeamName_order_and_fallback.2.2 mNoCode
     (by decide) (by decide) (by decide)⟩

/- ### Claim theorems: C8 -/

/-- C8, counterexample: the two stream routes disagree — for an unparseable
stdout line, the markets-stream route emits NOTHING (the line is silently
dropped, no `raw` event), while the realtime stream route forwards it as a
`raw` event; so not every unparseable producer line is forwarded. -/
theorem marketsStream_drops_unparseable :
    processLineMarketsStream (fun _ => false) "hello" = [] ∧
    processLineStream (fun _ => false) "hello" = [SSEEvent.raw "hello"] :=
  ⟨rfl, rfl⟩

/-- C8, amended: the realtime stream route (`/api/kalshi/stream`) forwards
every nonempty unparseable stdout line as a `raw` event carrying the
TRIMMED line, and both stream consumers ignore `raw` events; but the
markets-stream route (`/api/kalshi/markets-stream`) silently drops
unparseable lines instead of forwarding them. -/
theorem rawLine_forwarding_amended (parseOk : String → Bool) (line : String)
    (hne : strTrim line ≠ "") (hbad : parseOk (strTrim line) = false) :
    processLineStream parseOk line = [SSEEvent.raw (strTrim line)] ∧
    processLineMarketsStream parseOk line = [] ∧
    (∀ (s : RealtimeState) (msg : String) (t : ℤ),
       handleRealtimeMessage s (RealtimeMessage.raw msg t) = s) ∧
    (∀ (s : KalshiPageState) (msg : String),
       handleStreamEvent s (StreamEvent.raw msg) = s) := by
  refine ⟨?_, ?_, fun s msg t => rfl, fun s msg => rfl⟩
  · simp [processLineStream, hne, hbad]
  · simp [processLineMarketsStream, hne, hbad]

/-- Witness for `rawLine_forwarding_amended` at a concrete unparseable
line. -/
theorem rawLine_forwarding_amended_witness :
    (strTrim "not json" ≠ "") ∧
    ((fun _ => false : String → Bool) (strTrim "not json") = false) ∧
    (processLineStream (fun _ => false) "not json"
        = [SSEEvent.raw (strTrim "not json")] ∧
     processLineMarketsStream (fun _ => false) "not json" = [] ∧
     (∀ (s : RealtimeState) (msg : String) (t : ℤ),
        handleRealtimeMessage s (RealtimeMessage.raw msg t) = s) ∧
     (∀ (s : KalshiPageState) (msg : String),
        handleStreamEvent s (StreamEvent.raw msg) = s)) :=
  ⟨by decide, rfl,
   rawLine_forwarding_amended (fun _ => false) "not json" (by decide) rfl⟩

end TUMfoolery
